import Mathlib

/-!
Verification of the document ingestion / chunking / caching core of the
BackendIAeducativa repository, against its natural-language specification.

Python text values (`str`) are embedded as `List Char` (a Python string is a
sequence of Unicode code points); byte strings are embedded as `List Nat`
(one entry per byte, each < 256).  Each definition carries a reference to the
source function it embeds.
-/

namespace EduBackend

/-! ## Chunker: `chunk_text` (src/app/core/utils.py, lines 46-89) -/

/-- Embedding of the candidate test performed by Python `str.rfind(needle, start, stop)`
at one index: the needle occurs at `i` and the occurrence ends no later than `bound`
(the clamped stop position). -/
def matchesAt (text needle : List Char) (bound i : Nat) : Bool :=
  decide (i + needle.length ≤ bound) && needle.isPrefixOf (text.drop i)

/-- Backward scan of Python `str.rfind(needle, start, stop)`: try index `i`, then
`i - 1`, ..., stopping at `start`; `none` corresponds to Python's `-1` result. -/
def rfindGo (text needle : List Char) (start bound : Nat) : Nat → Option Nat
  | 0 => if 0 < start then none
         else if matchesAt text needle bound 0 then some 0 else none
  | i + 1 =>
      if i + 1 < start then none
      else if matchesAt text needle bound (i + 1) then some (i + 1)
      else rfindGo text needle start bound i

/-- Embedding of Python `text.rfind(needle, start, stop)` (used by `chunk_text`):
largest index `i` with `start ≤ i`, the needle occurring at `i`, and the occurrence
contained in the slice `text[start:stop]`; `none` for Python's `-1`. -/
def rfind (text needle : List Char) (start stop : Nat) : Option Nat :=
  rfindGo text needle start (min stop text.length) (min stop text.length)

/-- Embedding of the guard pattern `found = text.rfind(...); if found > current_pos:`
from `chunk_text`: keeps the found index only when it is strictly greater than the
current position (Python's `-1` sentinel never passes the guard). -/
def boundaryHit (r : Option Nat) (cp : Nat) : Option Nat :=
  match r with
  | some p => if cp < p then some p else none
  | none => none

/-- Embedding of one iteration of the `while` loop of `chunk_text`
(src/app/core/utils.py lines 64-87): computes the end position of the chunk that
starts at `cp`.  The candidate is `min (cp + chunkSize) text.length`; when it is not
the end of the text the code looks backward for a paragraph break `"\n\n"` (cut after
the two newlines), then a sentence end `". "` (cut after the space), then a plain
space (cut after the space), and otherwise cuts at the candidate. -/
def chunkEnd (text : List Char) (chunkSize cp : Nat) : Nat :=
  let e := min (cp + chunkSize) text.length
  if e < text.length then
    match boundaryHit (rfind text ['\n', '\n'] cp e) cp with
    | some p => p + 2
    | none =>
        match boundaryHit (rfind text ['.', ' '] cp e) cp with
        | some p => p + 2
        | none =>
            match boundaryHit (rfind text [' '] cp e) cp with
            | some p => p + 1
            | none => e
  else e

/-- Fuelled embedding of the `while current_pos < len(text)` loop of `chunk_text`:
each iteration appends the slice `text[current_pos:end_pos]` and sets
`current_pos := end_pos`.  For `chunkSize ≥ 1` the position strictly advances at
every iteration, so fuel `text.length` always suffices (the fuel-out branch is
unreachable there; with `chunkSize = 0` the Python loop itself never terminates). -/
def chunkTextGo (text : List Char) (chunkSize : Nat) : Nat → Nat → List (List Char)
  | 0, _ => []
  | fuel + 1, cp =>
      if cp < text.length then
        ((text.drop cp).take (chunkEnd text chunkSize cp - cp)) ::
          chunkTextGo text chunkSize fuel (chunkEnd text chunkSize cp)
      else []

/-- Embedding of `chunk_text(text, chunk_size)` (src/app/core/utils.py lines 46-89):
returns `[text]` when the text fits in one chunk, otherwise runs the splitting
loop from position 0. -/
def chunk_text (text : List Char) (chunkSize : Nat) : List (List Char) :=
  if text.length ≤ chunkSize then [text]
  else chunkTextGo text chunkSize text.length 0

/-! ## ContentGuard: `content_security_check` (src/app/core/security.py, lines 9-33) -/

/-- Embedding of the Python substring test `needle in hay` on code-point lists:
true when `needle` occurs contiguously inside `hay` (every string contains the
empty string). -/
def listContains (hay needle : List Char) : Bool :=
  (List.range (hay.length + 1)).any (fun i => needle.isPrefixOf (hay.drop i))

/-- Embedding of the set `PROHIBITED_CONTENT` (src/app/core/security.py lines 4-7),
listed in source order.  Python iterates a `set` in an unspecified order; the order
only influences which term is reported when several match, never the verdict. -/
def PROHIBITED_CONTENT : List String :=
  ["violencia", "discriminación", "odio", "obscenidad", "drogas", "suicidio",
   "abuso", "sexual", "terrorismo", "extremismo", "pornografía", "blasfemia"]

/-- Embedding of `content_security_check(text)` (src/app/core/security.py lines 9-33):
first scans for a prohibited term in the lowercased text, then rejects texts shorter
than 10 characters, then texts longer than 100000 characters; otherwise the text is
safe with an empty reason. -/
def content_security_check (text : List Char) : Bool × String :=
  let textLower := text.map Char.toLower
  match PROHIBITED_CONTENT.find? (fun w => listContains textLower w.data) with
  | some w => (false, "El contenido contiene términos inapropiados: " ++ w)
  | none =>
      if text.length < 10 then (false, "El contenido es demasiado corto")
      else if text.length > 100000 then
        (false, "El contenido es demasiado largo para procesar")
      else (true, "")

/-! ## DocumentIngestor: `DocumentProcessor.process_upload` extraction phase
(src/app/services/document_processor.py, lines 48-70) -/

/-- Embedding of a UTF-8 continuation byte test (`0x80 ≤ b ≤ 0xBF`). -/
def isCont (b : Nat) : Bool := 128 ≤ b && b ≤ 191

/-- Embedding of the second-byte constraint of a three-byte UTF-8 sequence headed by
`b`, excluding overlong encodings (`E0 A0..BF`) and surrogates (`ED 80..9F`). -/
def threeByteOk (b b2 : Nat) : Bool :=
  (b == 224 && 160 ≤ b2 && b2 ≤ 191) ||
  (225 ≤ b && b ≤ 236 && isCont b2) ||
  (b == 237 && 128 ≤ b2 && b2 ≤ 159) ||
  (238 ≤ b && b ≤ 239 && isCont b2)

/-- Embedding of the second-byte constraint of a four-byte UTF-8 sequence headed by
`b`, excluding overlong encodings (`F0 90..BF`) and code points above `U+10FFFF`
(`F4 80..8F`). -/
def fourByteOk (b b2 : Nat) : Bool :=
  (b == 240 && 144 ≤ b2 && b2 ≤ 191) ||
  (241 ≤ b && b ≤ 243 && isCont b2) ||
  (b == 244 && 128 ≤ b2 && b2 ≤ 143)

/-- Embedding of Python `bytes.decode("utf-8")` in strict mode: decodes a byte list
to the list of code points, or `none` when the bytes are not valid UTF-8 (where
Python raises `UnicodeDecodeError`). -/
def utf8decode : List Nat → Option (List Nat)
  | [] => some []
  | b :: rest =>
      if b ≤ 127 then (utf8decode rest).map (fun cs => b :: cs)
      else if 194 ≤ b && b ≤ 223 then
        match rest with
        | b2 :: rest2 =>
            if isCont b2 then
              (utf8decode rest2).map (fun cs => ((b - 192) * 64 + (b2 - 128)) :: cs)
            else none
        | [] => none
      else if 224 ≤ b && b ≤ 239 then
        match rest with
        | b2 :: b3 :: rest3 =>
            if threeByteOk b b2 && isCont b3 then
              (utf8decode rest3).map
                (fun cs => ((b - 224) * 4096 + (b2 - 128) * 64 + (b3 - 128)) :: cs)
            else none
        | _ => none
      else if 240 ≤ b && b ≤ 244 then
        match rest with
        | b2 :: b3 :: b4 :: rest4 =>
            if fourByteOk b b2 && isCont b3 && isCont b4 then
              (utf8decode rest4).map
                (fun cs =>
                  ((b - 240) * 262144 + (b2 - 128) * 4096 + (b3 - 128) * 64 + (b4 - 128))
                    :: cs)
            else none
        | _ => none
      else none

/-- Embedding of the `DocumentType` enum (src/app/shemas/document.py lines 7-12). -/
inductive DocumentType where
  | pdf
  | text
  | docx
  | markdown
deriving DecidableEq

/-- Embedding of `DocumentProcessor._get_document_type`
(src/app/services/document_processor.py lines 115-123): maps a lowercased file
extension to a document type, defaulting to `text` for unrecognized extensions. -/
def get_document_type (ext : String) : DocumentType :=
  if ext = ".pdf" then .pdf
  else if ext = ".txt" then .text
  else if ext = ".docx" then .docx
  else if ext = ".md" then .markdown
  else .text

/-- Outcome of the text-extraction phase of `process_upload`: a decoded text, an
`HTTPException` raised by the code itself, or a Python exception that the code does
not catch and that propagates out of `process_upload`. -/
inductive ExtractOutcome where
  | ok (codepoints : List Nat)
  | httpError (statusCode : Nat) (detail : String)
  | uncaught (exnName : String)
deriving DecidableEq

/-- Embedding of the extraction dispatch of `DocumentProcessor.process_upload`
(src/app/services/document_processor.py lines 52-70).  The PDF branch calls
`_process_pdf`, which involves the external PyPDF2 library and is abstracted as the
parameter `pdfResult`.  The `text` branch decodes UTF-8 with no `try`, so a decode
failure propagates as an uncaught `UnicodeDecodeError`; the branch for the remaining
types wraps the decode in `try ... except UnicodeDecodeError` and raises an
`HTTPException` 415 "Formato de archivo no soportado o corrupto". -/
def extract_text_phase (pdfResult : ExtractOutcome) (ext : String) (content : List Nat) :
    ExtractOutcome :=
  match get_document_type ext with
  | .pdf => pdfResult
  | .text =>
      match utf8decode content with
      | some cps => .ok cps
      | none => .uncaught "UnicodeDecodeError"
  | _ =>
      match utf8decode content with
      | some cps => .ok cps
      | none => .httpError 415 "Formato de archivo no soportado o corrupto"

/-! ## Summary endpoint: `create_summary` input selection
(src/app/api/endpoints/summary.py, lines 45-64) -/

/-- Result of the input-selection prologue of the `create_summary` endpoint: either
the resolved document text, or an `HTTPException` with a status code and a detail
message. -/
inductive ResolveResult where
  | ok (documentText : String)
  | httpError (statusCode : Nat) (detail : String)
deriving DecidableEq

/-- Embedding of the input-selection prologue of `create_summary`
(src/app/api/endpoints/summary.py lines 45-64).  `registry` models
`doc_processor.get_document`, mapping a document id to the stored document's text
when the id is known.  When `request.document_id` is truthy the document is looked
up (404 when absent) and `request.text` is ignored; otherwise `request.text` is
used; a falsy resulting text (absent or empty) raises the 400 validation error
"Se debe proporcionar texto o document_id". -/
def create_summary_resolve (registry : String → Option String)
    (documentId : Option String) (text : Option String) : ResolveResult :=
  let documentText : Option String :=
    match documentId with
    | some _ => none
    | none => text
  match documentId with
  | some did =>
      match registry did with
      | none => .httpError 404 ("Documento no encontrado: " ++ did)
      | some dtext =>
          if dtext = "" then .httpError 400 "Se debe proporcionar texto o document_id"
          else .ok dtext
  | none =>
      match documentText with
      | none => .httpError 400 "Se debe proporcionar texto o document_id"
      | some t =>
          if t = "" then .httpError 400 "Se debe proporcionar texto o document_id"
          else .ok t

/-! ## ResultCache: `generate_cache_key` and `cache_result`
(src/app/core/cache.py, lines 39-89) -/

/-- Embedding of the JSON-serializable Python values that flow through the cache:
`None`, booleans, integers, strings, lists and tuples. -/
inductive PyVal where
  | pyNone
  | pyBool (b : Bool)
  | pyInt (n : Int)
  | pyStr (s : String)
  | pyList (xs : List PyVal)
  | pyTuple (xs : List PyVal)

/-- Embedding of the escaping `json.dumps` applies to one character of a string
(quote and backslash; other characters pass through, control characters are not
used by any statement here). -/
def jsonEscapeChar (c : Char) : String :=
  if c = '"' then "\\\"" else if c = '\\' then "\\\\" else String.singleton c

/-- Embedding of the escaping `json.dumps` applies to a string body. -/
def jsonEscape (s : String) : String :=
  String.join (s.data.map jsonEscapeChar)

/-- Concatenation of a list of strings with a separator, as produced by the
`", "`-separated renderings of `str` and `json.dumps`. -/
def joinSep (sep : String) : List String → String
  | [] => ""
  | [x] => x
  | x :: y :: rest => x ++ sep ++ joinSep sep (y :: rest)

mutual

/-- Embedding of `json.dumps` on one value (as called by `generate_cache_key` and
`cache_result` in src/app/core/cache.py): tuples serialize as JSON arrays. -/
def dumpsJson : PyVal → String
  | .pyNone => "null"
  | .pyBool b => if b then "true" else "false"
  | .pyInt n => toString n
  | .pyStr s => "\"" ++ jsonEscape s ++ "\""
  | .pyList xs => "[" ++ dumpsJsonList xs ++ "]"
  | .pyTuple xs => "[" ++ dumpsJsonList xs ++ "]"

/-- Embedding of the comma-separated element rendering of `json.dumps` on a list. -/
def dumpsJsonList : List PyVal → String
  | [] => ""
  | [x] => dumpsJson x
  | x :: y :: rest => dumpsJson x ++ ", " ++ dumpsJsonList (y :: rest)

end

mutual

/-- Embedding of Python `repr` on one value, as used by `str(args)` on the
positional-argument tuple in `generate_cache_key` (src/app/core/cache.py line 42);
`repr` of a string wraps it in single quotes (escaping inside string literals is
not needed by any statement here). -/
def pyRepr : PyVal → String
  | .pyNone => "None"
  | .pyBool b => if b then "True" else "False"
  | .pyInt n => toString n
  | .pyStr s => "\x27" ++ s ++ "\x27"
  | .pyList xs => "[" ++ pyReprList xs ++ "]"
  | .pyTuple [x] => "(" ++ pyRepr x ++ ",)"
  | .pyTuple xs => "(" ++ pyReprList xs ++ ")"

/-- Embedding of the comma-separated element rendering of Python `repr` on a list. -/
def pyReprList : List PyVal → String
  | [] => ""
  | [x] => pyRepr x
  | x :: y :: rest => pyRepr x ++ ", " ++ pyReprList (y :: rest)

end

instance : DecidableRel (fun a b : String × PyVal => a.1 ≤ b.1) :=
  fun a b => inferInstanceAs (Decidable (a.1 ≤ b.1))

instance : IsTotal (String × PyVal) (fun a b => a.1 ≤ b.1) :=
  ⟨fun a b => le_total a.1 b.1⟩

instance : IsTrans (String × PyVal) (fun a b => a.1 ≤ b.1) :=
  ⟨fun _ _ _ hab hbc => le_trans hab hbc⟩

/-- Embedding of the key canonicalization performed by
`json.dumps(kwargs, sort_keys=True)` (src/app/core/cache.py line 43): the
keyword-argument entries are ordered by their names before serialization.  A Python
`dict` has pairwise-distinct keys, so sorting by name determines the order
completely. -/
def sortKwargs (kwargs : List (String × PyVal)) : List (String × PyVal) :=
  List.insertionSort (fun a b => a.1 ≤ b.1) kwargs

/-- Embedding of `json.dumps(kwargs, sort_keys=True)` on the keyword-argument
mapping (src/app/core/cache.py line 43). -/
def jsonDumpsKwargs (kwargs : List (String × PyVal)) : String :=
  "\x7b" ++
    joinSep ", " ((sortKwargs kwargs).map
      (fun kv => "\"" ++ jsonEscape kv.1 ++ "\": " ++ dumpsJson kv.2)) ++
    "\x7d"

/-- Embedding of `generate_cache_key(prefix, *args, **kwargs)`
(src/app/core/cache.py lines 39-47): builds
`prefix + ":" + str(args) + ":" + json.dumps(kwargs, sort_keys=True)` and digests
it.  The MD5 digest is an arbitrary deterministic function of this string, so it is
taken as the parameter `digest`; every statement proved below holds for every
choice of `digest`, in particular for MD5. -/
def generate_cache_key (digest : String → String) (pre : String) (args : List PyVal)
    (kwargs : List (String × PyVal)) : String :=
  digest (pre ++ ":" ++ pyRepr (.pyTuple args) ++ ":" ++ jsonDumpsKwargs kwargs)

mutual

/-- Embedding of the JSON round trip `json.loads(json.dumps(v))` performed between
storing a computed result and serving it from the cache
(src/app/core/cache.py lines 70 and 81): atoms come back unchanged, lists come back
as lists, and tuples come back as lists (JSON has no tuple type). -/
def jsonRoundTrip : PyVal → PyVal
  | .pyNone => .pyNone
  | .pyBool b => .pyBool b
  | .pyInt n => .pyInt n
  | .pyStr s => .pyStr s
  | .pyList xs => .pyList (jsonRoundTripList xs)
  | .pyTuple xs => .pyList (jsonRoundTripList xs)

/-- Elementwise JSON round trip of a list of values. -/
def jsonRoundTripList : List PyVal → List PyVal
  | [] => []
  | x :: xs => jsonRoundTrip x :: jsonRoundTripList xs

end

/-- Embedding of one call through the wrapper produced by `cache_result`
(src/app/core/cache.py lines 53-87) with Redis enabled and healthy.  `store` maps a
cache key to the value whose `json.dumps` text `setex` stored under that key; a hit
returns what `json.loads` makes of that stored text, namely the JSON round trip of
the stored value.  The result triple is (returned value, store after the call,
number of invocations of the wrapped computation during the call). -/
def cache_call (store : String → Option PyVal) (key : String) (computed : PyVal) :
    PyVal × (String → Option PyVal) × Nat :=
  match store key with
  | some stored => (jsonRoundTrip stored, store, 0)
  | none => (computed, fun k => if k = key then some computed else store k, 1)

/-- Embedding of a Python call outcome: a returned value or a raised exception. -/
inductive PyResult (α : Type) where
  | ok (val : α)
  | exn (msg : String)

/-- Embedding of one call through the wrapper produced by `cache_result`
(src/app/core/cache.py lines 53-87), keeping exception behaviour explicit.  The
wrapper returns the computed result directly when Redis is disabled or no client is
available; otherwise it calls `redis_client.get` (NOT wrapped in `try`, so a raised
`getOutcome` propagates), treats an empty cached string as falsy (a miss), tries
`json.loads` on a non-empty cached string (`loads` returning `none` models the
`except` that falls through to recomputation), and on a miss recomputes, attempting
`setex` inside `try ... except` so that either `setexOutcome` yields the computed
result. -/
def cache_result_call (redisEnabled hasClient : Bool)
    (getOutcome : PyResult (Option String)) (loads : String → Option PyVal)
    (setexOutcome : PyResult Unit) (computed : PyVal) : PyResult PyVal :=
  if redisEnabled = false then .ok computed
  else if hasClient = false then .ok computed
  else
    match getOutcome with
    | .exn m => .exn m
    | .ok cachedResult =>
        match
          (match cachedResult with
           | some s => if s = "" then none else loads s
           | none => none : Option PyVal) with
        | some v => .ok v
        | none =>
            match setexOutcome with
            | .ok _ => .ok computed
            | .exn _ => .ok computed

/-! ## TextAnnotator: `NLPService.process_text`
(src/app/services/nlp_service.py, lines 35-64) -/

/-- Embedding of `NLPService.process_text(text)` (src/app/services/nlp_service.py
lines 35-64).  `nlpModel` is the underlying spaCy model (`self.nlp`), abstract here;
`docTruthy` is Python truthiness of a spaCy `Doc` (used by the final
`combined_doc or self.nlp("")`).  For texts over 100000 characters the code splits
with `chunk_text(text, 100000)`, applies `self.nlp` to every chunk, keeps only the
document of chunk 0 (`if i == 0`), and returns it (falling back to `self.nlp("")`
when it is falsy or when there are no chunks).  The second component records, in
order, every text the model was applied to. -/
def process_text_run {Doc : Type} (nlpModel : List Char → Doc) (docTruthy : Doc → Bool)
    (text : List Char) : Doc × List (List Char) :=
  if 100000 < text.length then
    match chunk_text text 100000 with
    | [] => (nlpModel [], [[]])
    | c :: cs =>
        if docTruthy (nlpModel c) then (nlpModel c, c :: cs)
        else (nlpModel [], (c :: cs) ++ [[]])
  else (nlpModel text, [text])

/-! ## Theorems: auxiliary lemmas and the claims C1-C10 -/

/-! Auxiliary lemmas about the chunker. -/

theorem rfindGo_eq_some {text needle : List Char} {start bound i p : Nat}
    (h : rfindGo text needle start bound i = some p) :
    start ≤ p ∧ p + needle.length ≤ bound ∧ needle.isPrefixOf (text.drop p) = true := by
  induction i with
  | zero =>
      simp only [rfindGo] at h
      split at h
      · exact absurd h (by simp)
      · split at h
        · rename_i hz hm
          obtain rfl : p = 0 := by simpa using h.symm
          have := hm
          simp only [matchesAt, Bool.and_eq_true, decide_eq_true_eq] at this
          exact ⟨Nat.le_of_not_lt hz |>.trans (Nat.zero_le 0), this.1, this.2⟩
        · exact absurd h (by simp)
  | succ i ih =>
      simp only [rfindGo] at h
      split at h
      · exact absurd h (by simp)
      · split at h
        · rename_i hs hm
          obtain rfl : p = i + 1 := by simpa using h.symm
          simp only [matchesAt, Bool.and_eq_true, decide_eq_true_eq] at hm
          exact ⟨Nat.le_of_not_lt hs, hm.1, hm.2⟩
        · exact ih h

theorem rfindGo_eq_none {text needle : List Char} {start bound : Nat}
    (h : ∀ j, needle.isPrefixOf (text.drop j) = false) (i : Nat) :
    rfindGo text needle start bound i = none := by
  induction i with
  | zero =>
      simp only [rfindGo, matchesAt, h 0, Bool.and_false]
      split <;> rfl
  | succ i ih =>
      simp only [rfindGo, matchesAt, h (i + 1), Bool.and_false]
      split
      · rfl
      · exact ih

theorem rfind_none_of_not_mem {text needle : List Char} {c : Char}
    (hc : c ∈ needle) (hct : c ∉ text) (start stop : Nat) :
    rfind text needle start stop = none := by
  apply rfindGo_eq_none
  intro j
  cases h : needle.isPrefixOf (text.drop j) with
  | false => rfl
  | true =>
      exfalso
      have hpre : needle <+: text.drop j := by
        simpa using h
      exact hct (List.drop_subset j text (hpre.subset hc))

theorem boundaryHit_eq_some {r : Option Nat} {cp p : Nat}
    (h : boundaryHit r cp = some p) : cp < p ∧ r = some p := by
  cases r with
  | none => simp [boundaryHit] at h
  | some q =>
      simp only [boundaryHit] at h
      split at h
      · rename_i hlt
        obtain rfl : p = q := by simpa using h.symm
        exact ⟨hlt, rfl⟩
      · exact absurd h (by simp)

theorem chunkEnd_bounds {text : List Char} {chunkSize cp : Nat}
    (hcs : 1 ≤ chunkSize) (hcp : cp < text.length) :
    cp < chunkEnd text chunkSize cp ∧
      chunkEnd text chunkSize cp ≤ min (cp + chunkSize) text.length := by
  have hmin : cp < min (cp + chunkSize) text.length := by
    exact Nat.lt_min.mpr ⟨by omega, hcp⟩
  have hminle : min (cp + chunkSize) text.length ≤ text.length := Nat.min_le_right _ _
  simp only [chunkEnd]
  split
  · rename_i hend
    split
    · rename_i p hpar
      obtain ⟨hcpp, hr⟩ := boundaryHit_eq_some hpar
      have := (rfindGo_eq_some hr).2.1
      simp only [List.length_cons, List.length_nil] at this
      constructor
      · omega
      · have hb : min (min (cp + chunkSize) text.length) text.length
            = min (cp + chunkSize) text.length := Nat.min_eq_left hminle
        omega
    · split
      · rename_i p hsent
        obtain ⟨hcpp, hr⟩ := boundaryHit_eq_some hsent
        have := (rfindGo_eq_some hr).2.1
        simp only [List.length_cons, List.length_nil] at this
        have hb : min (min (cp + chunkSize) text.length) text.length
            = min (cp + chunkSize) text.length := Nat.min_eq_left hminle
        omega
      · split
        · rename_i p hsp
          obtain ⟨hcpp, hr⟩ := boundaryHit_eq_some hsp
          have := (rfindGo_eq_some hr).2.1
          simp only [List.length_cons, List.length_nil] at this
          have hb : min (min (cp + chunkSize) text.length) text.length
              = min (cp + chunkSize) text.length := Nat.min_eq_left hminle
          omega
        · exact ⟨hmin, Nat.le_refl _⟩
  · exact ⟨hmin, Nat.le_refl _⟩

theorem chunkTextGo_flatten {text : List Char} {chunkSize : Nat} (hcs : 1 ≤ chunkSize) :
    ∀ fuel cp, text.length - cp ≤ fuel →
      (chunkTextGo text chunkSize fuel cp).flatten = text.drop cp := by
  intro fuel
  induction fuel with
  | zero =>
      intro cp hle
      have : text.length ≤ cp := by omega
      simp [chunkTextGo, List.drop_eq_nil_iff.mpr this]
  | succ fuel ih =>
      intro cp hle
      by_cases hcp : cp < text.length
      · have hb := chunkEnd_bounds hcs hcp
        set e := chunkEnd text chunkSize cp with he
        have h1 : cp < e := hb.1
        have h2 : e ≤ text.length := le_trans hb.2 (Nat.min_le_right _ _)
        simp only [chunkTextGo, if_pos hcp, List.flatten_cons]
        rw [ih e (by omega)]
        have : text.drop e = List.drop (e - cp) (text.drop cp) := by
          rw [List.drop_drop]
          congr 1
          omega
        rw [this, List.take_append_drop]
      · have hnil : text.drop cp = [] := List.drop_eq_nil_iff.mpr (by omega)
        simp [chunkTextGo, hcp, hnil]

/-- Claim C1: for every input text and every `maxChunkSize ≥ 1`, concatenating the
chunks returned by `chunk_text` in order reproduces the original text exactly. -/
theorem chunk_text_concat (text : List Char) (chunkSize : Nat) (hcs : 1 ≤ chunkSize) :
    (chunk_text text chunkSize).flatten = text := by
  unfold chunk_text
  split
  · simp
  · simpa using chunkTextGo_flatten hcs text.length 0 (by omega)

/-- Claim C1 witness: concrete instance of the concatenation invariant. -/
theorem chunk_text_concat_witness :
    1 ≤ 5 ∧ (chunk_text "hello world, again".data 5).flatten = "hello world, again".data :=
  ⟨by decide, chunk_text_concat "hello world, again".data 5 (by decide)⟩

theorem chunkTextGo_length_le {text : List Char} {chunkSize : Nat} (hcs : 1 ≤ chunkSize) :
    ∀ fuel cp c, c ∈ chunkTextGo text chunkSize fuel cp → c.length ≤ chunkSize := by
  intro fuel
  induction fuel with
  | zero => intro cp c hc; simp [chunkTextGo] at hc
  | succ fuel ih =>
      intro cp c hc
      by_cases hcp : cp < text.length
      · simp only [chunkTextGo, if_pos hcp, List.mem_cons] at hc
        rcases hc with hc | hc
        · have hb := chunkEnd_bounds hcs hcp
          have h2 : chunkEnd text chunkSize cp ≤ cp + chunkSize :=
            le_trans hb.2 (Nat.min_le_left _ _)
          subst hc
          calc ((text.drop cp).take (chunkEnd text chunkSize cp - cp)).length
              ≤ chunkEnd text chunkSize cp - cp := by
                simp [List.length_take_le]
            _ ≤ chunkSize := by omega
        · exact ih _ _ hc
      · simp [chunkTextGo, hcp] at hc

theorem chunk_text_chunk_bound {text : List Char} {chunkSize : Nat} (hcs : 1 ≤ chunkSize) :
    ∀ c ∈ chunk_text text chunkSize, c.length ≤ chunkSize := by
  intro c hc
  unfold chunk_text at hc
  split at hc
  · rename_i hfit
    obtain rfl : c = text := by simpa using hc
    exact hfit
  · exact chunkTextGo_length_le hcs _ _ _ hc

/-- Claim C2: for every input text and every `maxChunkSize ≥ 1`, every chunk returned
by `chunk_text` has length at most `maxChunkSize`.  This is stronger than the claim,
which allows an oversized chunk when a single unbroken token exceeds the budget: in
the code that exception can never occur, because the fallback cuts exactly at the
budget, so the bound holds unconditionally. -/
theorem chunk_text_length_le (text : List Char) (chunkSize : Nat) (hcs : 1 ≤ chunkSize) :
    ∀ c ∈ chunk_text text chunkSize, c.length ≤ chunkSize :=
  chunk_text_chunk_bound hcs

/-- Claim C2 witness: concrete instance of the chunk length bound. -/
theorem chunk_text_length_le_witness :
    1 ≤ 4 ∧ ∀ c ∈ chunk_text "one two three four".data 4, c.length ≤ 4 :=
  ⟨by decide, chunk_text_length_le "one two three four".data 4 (by decide)⟩

/-- Claim C3: for every input text and every `maxChunkSize ≥ 1`, the loop of
`chunk_text` strictly advances the current position at every iteration (so it
terminates), the whole text is consumed (the chunks concatenate back to the text),
and a non-empty input yields at least one chunk. -/
theorem chunk_text_terminating (text : List Char) (chunkSize : Nat)
    (hcs : 1 ≤ chunkSize) (hne : text ≠ []) :
    (∀ cp, cp < text.length → cp < chunkEnd text chunkSize cp) ∧
      (chunk_text text chunkSize).flatten = text ∧
      chunk_text text chunkSize ≠ [] := by
  refine ⟨fun cp hcp => (chunkEnd_bounds hcs hcp).1, chunk_text_concat text chunkSize hcs, ?_⟩
  unfold chunk_text
  split
  · simp
  · rename_i hbig
    have hpos : 0 < text.length := List.length_pos.mpr hne
    obtain ⟨m, hm⟩ : ∃ m, text.length = m + 1 := ⟨text.length - 1, by omega⟩
    rw [hm]
    simp only [chunkTextGo]
    rw [if_pos hpos]
    exact List.cons_ne_nil _ _

/-- Claim C3 witness: concrete instance of the termination guarantees. -/
theorem chunk_text_terminating_witness :
    (1 ≤ 3 ∧ "abcdefgh".data ≠ []) ∧
      ((∀ cp, cp < "abcdefgh".data.length → cp < chunkEnd "abcdefgh".data 3 cp) ∧
        (chunk_text "abcdefgh".data 3).flatten = "abcdefgh".data ∧
        chunk_text "abcdefgh".data 3 ≠ []) :=
  ⟨⟨by decide, by decide⟩, chunk_text_terminating "abcdefgh".data 3 (by decide) (by decide)⟩

/-- Claim C5 counterexample: the 9-character text `"odioxxxxx"` is shorter than 10
characters, yet `content_security_check` reports the prohibited-term reason (the
term scan runs before the length check), not the too-short reason, and the reason
does not mention shortness (it does not contain `"corto"`). -/
theorem content_security_check_nine_chars_not_short_reason :
    "odioxxxxx".data.length = 9 ∧
      content_security_check "odioxxxxx".data
        = (false, "El contenido contiene términos inapropiados: odio") ∧
      (content_security_check "odioxxxxx".data).2 ≠ "El contenido es demasiado corto" ∧
      listContains (content_security_check "odioxxxxx".data).2.data "corto".data = false := by
  refine ⟨by decide, by decide, by decide, by decide⟩

/-- Claim C5 amended: every text with fewer than 10 characters is reported not safe;
the reason is the too-short reason provided no prohibited term occurs in the
lowercased text (otherwise the reason names the matched term instead). -/
theorem content_security_check_short (text : List Char) (h : text.length < 10) :
    (content_security_check text).1 = false ∧
      ((∀ w ∈ PROHIBITED_CONTENT, listContains (text.map Char.toLower) w.data = false) →
        content_security_check text = (false, "El contenido es demasiado corto")) := by
  constructor
  · unfold content_security_check
    cases hf : PROHIBITED_CONTENT.find? (fun w => listContains (text.map Char.toLower) w.data) with
    | some w => simp [hf]
    | none => simp [hf, h]
  · intro hnone
    have hf : PROHIBITED_CONTENT.find?
        (fun w => listContains (text.map Char.toLower) w.data) = none := by
      apply List.find?_eq_none.mpr
      intro w hw
      simp [hnone w hw]
    unfold content_security_check
    simp [hf, h]

/-- Claim C5 witness: concrete instance of the amended short-text behaviour. -/
theorem content_security_check_short_witness :
    "abcdefghi".data.length < 10 ∧
      ((content_security_check "abcdefghi".data).1 = false ∧
        ((∀ w ∈ PROHIBITED_CONTENT,
            listContains ("abcdefghi".data.map Char.toLower) w.data = false) →
          content_security_check "abcdefghi".data
            = (false, "El contenido es demasiado corto"))) :=
  ⟨by decide, content_security_check_short "abcdefghi".data (by decide)⟩

/-- Claim C6 counterexample: a `.txt` upload (detected document type `text`) whose
single byte `0xFF` is not valid UTF-8 makes `process_upload` raise an uncaught
`UnicodeDecodeError`, not the 415 "unsupported or corrupt format" `HTTPException`
that the claim requires for every non-PDF type. -/
theorem extract_text_phase_txt_not_415 :
    extract_text_phase (.uncaught "unused") ".txt" [255] = .uncaught "UnicodeDecodeError" ∧
      extract_text_phase (.uncaught "unused") ".txt" [255]
        ≠ .httpError 415 "Formato de archivo no soportado o corrupto" :=
  ⟨by decide, by decide⟩

/-- Claim C6 amended: for a non-PDF upload whose bytes are not valid UTF-8, no
document text is extracted; for detected type `docx` or `markdown` the failure is
the 415 "unsupported or corrupt format" `HTTPException`, while for detected type
`text` (which includes every unrecognized extension) it is an uncaught
`UnicodeDecodeError`. -/
theorem extract_text_phase_invalid_utf8 (pdfResult : ExtractOutcome) (ext : String)
    (content : List Nat) (hdec : utf8decode content = none)
    (hnp : get_document_type ext ≠ .pdf) :
    (∀ cps, extract_text_phase pdfResult ext content ≠ .ok cps) ∧
      (get_document_type ext = .text →
        extract_text_phase pdfResult ext content = .uncaught "UnicodeDecodeError") ∧
      ((get_document_type ext = .docx ∨ get_document_type ext = .markdown) →
        extract_text_phase pdfResult ext content
          = .httpError 415 "Formato de archivo no soportado o corrupto") := by
  unfold extract_text_phase
  cases h : get_document_type ext with
  | pdf => exact absurd h hnp
  | text => simp [hdec]
  | docx => simp [hdec]
  | markdown => simp [hdec]

/-- Claim C6 witness: concrete instance of the amended decode-failure behaviour, for
a `.docx` upload with the invalid byte `0xFF`. -/
theorem extract_text_phase_invalid_utf8_witness :
    (utf8decode [255] = none ∧ get_document_type ".docx" ≠ .pdf) ∧
      ((∀ cps, extract_text_phase (.uncaught "unused") ".docx" [255] ≠ .ok cps) ∧
        (get_document_type ".docx" = .text →
          extract_text_phase (.uncaught "unused") ".docx" [255]
            = .uncaught "UnicodeDecodeError") ∧
        ((get_document_type ".docx" = .docx ∨ get_document_type ".docx" = .markdown) →
          extract_text_phase (.uncaught "unused") ".docx" [255]
            = .httpError 415 "Formato de archivo no soportado o corrupto")) :=
  ⟨⟨by decide, by decide⟩,
    extract_text_phase_invalid_utf8 (.uncaught "unused") ".docx" [255]
      (by decide) (by decide)⟩

/-- Claim C7 counterexample: a request carrying both a document id and raw text is
not rejected: `create_summary` uses the referenced document's text and silently
ignores the raw text (here the id `"d1"` resolves to `"texto del documento"` and
the supplied raw text `"texto directo"` plays no role). -/
theorem create_summary_resolve_both_not_rejected :
    create_summary_resolve
        (fun did => if did = "d1" then some "texto del documento" else none)
        (some "d1") (some "texto directo")
      = .ok "texto del documento" := by
  decide

/-- Claim C7 amended: a request with neither a document id nor raw text (and likewise
one whose supplied text is empty) is rejected with the 400 validation error, while a
request with both present is not rejected: the document reference takes precedence
and the raw text is ignored. -/
theorem create_summary_resolve_validation (registry : String → Option String) :
    create_summary_resolve registry none none
        = .httpError 400 "Se debe proporcionar texto o document_id" ∧
      create_summary_resolve registry none (some "")
        = .httpError 400 "Se debe proporcionar texto o document_id" ∧
      (∀ did dtext t, registry did = some dtext → dtext ≠ "" →
        create_summary_resolve registry (some did) (some t) = .ok dtext) := by
  refine ⟨rfl, rfl, ?_⟩
  intro did dtext t hreg hne
  unfold create_summary_resolve
  simp [hreg, hne]

/-- Claim C7 witness: concrete instance of the amended validation behaviour, with
every hypothesis discharged at a concrete input. -/
theorem create_summary_resolve_validation_witness :
    create_summary_resolve (fun _ => some "doc") none none
        = .httpError 400 "Se debe proporcionar texto o document_id" ∧
      create_summary_resolve (fun _ => some "doc") (some "d1") (some "texto")
        = .ok "doc" :=
  ⟨(create_summary_resolve_validation (fun _ => some "doc")).1,
    (create_summary_resolve_validation (fun _ => some "doc")).2.2 "d1" "doc" "texto"
      rfl (by decide)⟩

theorem sortKwargs_eq_of_perm {kw1 kw2 : List (String × PyVal)}
    (hperm : kw1.Perm kw2) (hnd : (kw1.map Prod.fst).Nodup) :
    sortKwargs kw1 = sortKwargs kw2 := by
  haveI : IsAntisymm (String × PyVal) (fun a b => a.1 < b.1) :=
    ⟨fun a b h1 h2 => absurd (lt_trans h1 h2) (lt_irrefl _)⟩
  have hp : (sortKwargs kw1).Perm (sortKwargs kw2) :=
    (List.perm_insertionSort _ kw1).trans
      (hperm.trans (List.perm_insertionSort _ kw2).symm)
  have hnd1 : ((sortKwargs kw1).map Prod.fst).Nodup :=
    (((List.perm_insertionSort _ kw1).map Prod.fst).nodup_iff).mpr hnd
  have hnd2 : ((sortKwargs kw2).map Prod.fst).Nodup :=
    (((List.perm_insertionSort _ kw2).map Prod.fst).nodup_iff).mpr
      ((hperm.map Prod.fst).nodup_iff.mp hnd)
  have hs1 : List.Sorted (fun a b : String × PyVal => a.1 ≤ b.1) (sortKwargs kw1) :=
    List.sorted_insertionSort _ kw1
  have hs2 : List.Sorted (fun a b : String × PyVal => a.1 ≤ b.1) (sortKwargs kw2) :=
    List.sorted_insertionSort _ kw2
  have hne1 : List.Pairwise (fun a b : String × PyVal => a.1 ≠ b.1) (sortKwargs kw1) :=
    List.pairwise_map.mp hnd1
  have hne2 : List.Pairwise (fun a b : String × PyVal => a.1 ≠ b.1) (sortKwargs kw2) :=
    List.pairwise_map.mp hnd2
  have hlt1 : List.Sorted (fun a b : String × PyVal => a.1 < b.1) (sortKwargs kw1) :=
    List.Pairwise.imp₂ (fun _ _ hle hne => lt_of_le_of_ne hle hne) hs1 hne1
  have hlt2 : List.Sorted (fun a b : String × PyVal => a.1 < b.1) (sortKwargs kw2) :=
    List.Pairwise.imp₂ (fun _ _ hle hne => lt_of_le_of_ne hle hne) hs2 hne2
  exact List.eq_of_perm_of_sorted hp hlt1 hlt2

/-- Claim C4: two key derivations with the same operation prefix, the same
positional arguments and keyword arguments that are equal as a mapping (a
permutation with pairwise-distinct names, as in a Python `dict`) produce the same
cache key for every digest function, and the second wrapped call is therefore a
cache hit (it invokes the wrapped computation zero times). -/
theorem generate_cache_key_kwargs_order (digest : String → String) (pre : String)
    (args : List PyVal) (computed : PyVal) (kw1 kw2 : List (String × PyVal))
    (hperm : kw1.Perm kw2) (hnd : (kw1.map Prod.fst).Nodup) :
    generate_cache_key digest pre args kw1 = generate_cache_key digest pre args kw2 ∧
      (cache_call
          (cache_call (fun _ => none) (generate_cache_key digest pre args kw1)
            computed).2.1
          (generate_cache_key digest pre args kw2) computed).2.2 = 0 := by
  have hkey : generate_cache_key digest pre args kw1
      = generate_cache_key digest pre args kw2 := by
    unfold generate_cache_key jsonDumpsKwargs
    rw [sortKwargs_eq_of_perm hperm hnd]
  refine ⟨hkey, ?_⟩
  rw [← hkey]
  simp [cache_call]

/-- Claim C4 witness: concrete instance with the two keyword arguments supplied in
the two possible orders. -/
theorem generate_cache_key_kwargs_order_witness :
    generate_cache_key (fun s => s) "summary" [.pyInt 1]
        [("b", .pyInt 2), ("a", .pyStr "x")]
      = generate_cache_key (fun s => s) "summary" [.pyInt 1]
        [("a", .pyStr "x"), ("b", .pyInt 2)] ∧
      (cache_call
          (cache_call (fun _ => none)
            (generate_cache_key (fun s => s) "summary" [.pyInt 1]
              [("b", .pyInt 2), ("a", .pyStr "x")]) (.pyInt 9)).2.1
          (generate_cache_key (fun s => s) "summary" [.pyInt 1]
            [("a", .pyStr "x"), ("b", .pyInt 2)]) (.pyInt 9)).2.2 = 0 :=
  generate_cache_key_kwargs_order (fun s => s) "summary" [.pyInt 1] (.pyInt 9)
    [("b", .pyInt 2), ("a", .pyStr "x")] [("a", .pyStr "x"), ("b", .pyInt 2)]
    (List.Perm.swap (("a", PyVal.pyStr "x") : String × PyVal) ("b", PyVal.pyInt 2) [])
    (by decide)

/-- Claim C8 counterexample: with the cache enabled and a client available, a
`redis_client.get` call that raises (for example a connection error when the store
is unreachable at lookup time) propagates out of the wrapper: the caller's request
fails with that cache error instead of receiving the computed result. -/
theorem cache_result_call_get_failure_propagates :
    cache_result_call true true (.exn "redis ConnectionError") (fun _ => none)
        (.ok ()) (.pyInt 7)
      = .exn "redis ConnectionError" ∧
      cache_result_call true true (.exn "redis ConnectionError") (fun _ => none)
          (.ok ()) (.pyInt 7)
        ≠ .ok (.pyInt 7) :=
  ⟨rfl, fun h => PyResult.noConfusion h⟩

/-- Claim C8 amended: whenever the `redis_client.get` lookup itself returns without
raising, the wrapper never fails: it returns some value, and in particular a
deserialization failure on a non-empty stored value (and any outcome of the `setex`
store attempt, which is swallowed) yields exactly the computed result; only a
raising lookup (previous counterexample) escapes to the caller. -/
theorem cache_result_call_failures_absorbed (redisEnabled hasClient : Bool)
    (cached : Option String) (loads : String → Option PyVal)
    (setexOutcome : PyResult Unit) (computed : PyVal) :
    (∃ v, cache_result_call redisEnabled hasClient (.ok cached) loads setexOutcome
        computed = .ok v) ∧
      (∀ s, cached = some s → s ≠ "" → loads s = none →
        cache_result_call redisEnabled hasClient (.ok cached) loads setexOutcome
          computed = .ok computed) := by
  constructor
  · unfold cache_result_call
    cases redisEnabled with
    | false => exact ⟨computed, rfl⟩
    | true =>
        cases hasClient with
        | false => exact ⟨computed, rfl⟩
        | true =>
            simp only [Bool.true_eq_false, if_false]
            cases cached with
            | none => cases setexOutcome <;> exact ⟨computed, rfl⟩
            | some s =>
                by_cases hs : s = ""
                · subst hs
                  simp only [if_pos rfl]
                  cases setexOutcome <;> exact ⟨computed, rfl⟩
                · simp only [if_neg hs]
                  cases hl : loads s with
                  | some v => exact ⟨v, rfl⟩
                  | none => cases setexOutcome <;> exact ⟨computed, rfl⟩
  · intro s hcached hs hl
    subst hcached
    unfold cache_result_call
    cases redisEnabled with
    | false => rfl
    | true =>
        cases hasClient with
        | false => rfl
        | true =>
            simp only [Bool.true_eq_false, if_false, if_neg hs, hl]
            cases setexOutcome <;> rfl

/-- Claim C8 witness: concrete instance — a stored value that fails to deserialize
is served as a miss and the computed result is returned, even though the subsequent
store attempt raises. -/
theorem cache_result_call_failures_absorbed_witness :
    cache_result_call true true (.ok (some "not json")) (fun _ => none)
        (.exn "setex failed") (.pyInt 3)
      = .ok (.pyInt 3) :=
  (cache_result_call_failures_absorbed true true (some "not json") (fun _ => none)
      (.exn "setex failed") (.pyInt 3)).2 "not json" rfl (by decide) rfl

/-- Claim C10: with the cache enabled and reachable, the first wrapped call computes
(one invocation) and returns the computed value; the second call with the same key
is a hit that invokes the computation zero times and returns the JSON round trip of
the originally computed result — so a hit equals the original result only up to
JSON representation: a tuple result comes back as a list on the hit, unlike a
direct invocation. -/
theorem cache_call_hit_json_round_trip (key : String) (computed : PyVal) :
    (cache_call (fun _ => none) key computed).1 = computed ∧
      (cache_call (fun _ => none) key computed).2.2 = 1 ∧
      (cache_call (cache_call (fun _ => none) key computed).2.1 key computed).1
        = jsonRoundTrip computed ∧
      (cache_call (cache_call (fun _ => none) key computed).2.1 key computed).2.2
        = 0 ∧
      jsonRoundTrip (.pyTuple [.pyInt 1, .pyInt 2]) = .pyList [.pyInt 1, .pyInt 2] ∧
      PyVal.pyTuple [.pyInt 1, .pyInt 2] ≠ PyVal.pyList [.pyInt 1, .pyInt 2] := by
  refine ⟨rfl, rfl, ?_, ?_, rfl, fun h => PyVal.noConfusion h⟩
  · simp [cache_call]
  · simp [cache_call]

/-- Claim C9: for a text over 100000 characters, `process_text` splits it with the
Chunker into windows of at most 100000 characters, invokes the linguistic model
exactly on those windows (never on the whole text, which is longer than any
window), and returns the document computed from the first window only — later
windows' results are dropped. -/
theorem process_text_first_window_only {Doc : Type} (nlpModel : List Char → Doc)
    (docTruthy : Doc → Bool) (text c : List Char) (cs : List (List Char))
    (hlen : 100000 < text.length) (hch : chunk_text text 100000 = c :: cs)
    (htr : docTruthy (nlpModel c) = true) :
    process_text_run nlpModel docTruthy text = (nlpModel c, c :: cs) ∧
      (∀ w ∈ c :: cs, w.length ≤ 100000) ∧
      text ∉ c :: cs := by
  have hball : ∀ w ∈ c :: cs, w.length ≤ 100000 := by
    intro w hw
    exact chunk_text_chunk_bound (by omega) w (hch ▸ hw)
  refine ⟨?_, hball, ?_⟩
  · unfold process_text_run
    rw [if_pos hlen, hch]
    simp [htr]
  · intro hmem
    have := hball text hmem
    omega

theorem chunkEnd_no_break {text : List Char} {chunkSize cp : Nat}
    (hn : ('\n' : Char) ∉ text) (hsp : (' ' : Char) ∉ text) :
    chunkEnd text chunkSize cp = min (cp + chunkSize) text.length := by
  have h1 : rfind text ['\n', '\n'] cp (min (cp + chunkSize) text.length) = none :=
    rfind_none_of_not_mem (by simp) hn _ _
  have h2 : rfind text ['.', ' '] cp (min (cp + chunkSize) text.length) = none :=
    rfind_none_of_not_mem (by simp) hsp _ _
  have h3 : rfind text [' '] cp (min (cp + chunkSize) text.length) = none :=
    rfind_none_of_not_mem (by simp) hsp _ _
  unfold chunkEnd
  simp only [h1, h2, h3, boundaryHit]
  split <;> rfl

theorem chunkTextGo_pos {text : List Char} {chunkSize fuel cp : Nat}
    (hf : 0 < fuel) (hcp : cp < text.length) :
    chunkTextGo text chunkSize fuel cp =
      ((text.drop cp).take (chunkEnd text chunkSize cp - cp)) ::
        chunkTextGo text chunkSize (fuel - 1) (chunkEnd text chunkSize cp) := by
  obtain ⟨f, rfl⟩ : ∃ f, fuel = f + 1 := ⟨fuel - 1, by omega⟩
  simp [chunkTextGo, hcp]

theorem chunkTextGo_stop {text : List Char} {chunkSize fuel cp : Nat}
    (hcp : ¬ cp < text.length) :
    chunkTextGo text chunkSize fuel cp = [] := by
  cases fuel <;> simp [chunkTextGo, hcp]

theorem chunk_text_replicate_a :
    chunk_text (List.replicate 100001 'a') 100000
      = [List.replicate 100000 'a', List.replicate 1 'a'] := by
  have hn : ('\n' : Char) ∉ List.replicate 100001 'a' := by
    intro h
    rw [List.mem_replicate] at h
    exact absurd h.2 (by decide)
  have hsp : (' ' : Char) ∉ List.replicate 100001 'a' := by
    intro h
    rw [List.mem_replicate] at h
    exact absurd h.2 (by decide)
  have hlen : (List.replicate 100001 'a').length = 100001 := List.length_replicate _ _
  have e0 : chunkEnd (List.replicate 100001 'a') 100000 0 = 100000 := by
    rw [chunkEnd_no_break hn hsp, hlen]
    norm_num
  have e1 : chunkEnd (List.replicate 100001 'a') 100000 100000 = 100001 := by
    rw [chunkEnd_no_break hn hsp, hlen]
    omega
  unfold chunk_text
  rw [if_neg (by rw [hlen]; norm_num)]
  rw [chunkTextGo_pos (by rw [hlen]; norm_num) (by rw [hlen]; norm_num), e0]
  rw [chunkTextGo_pos (by rw [hlen]; norm_num) (by rw [hlen]; norm_num), e1]
  rw [chunkTextGo_stop (by rw [hlen]; norm_num)]
  rw [List.drop_zero, List.take_replicate, List.drop_replicate, List.take_replicate]
  norm_num

/-- Claim C9 witness: concrete instance on the 100001-character text `"aaa...a"`,
with the model abstracted as the length function and every document truthy. -/
theorem process_text_first_window_only_witness :
    100000 < (List.replicate 100001 'a').length ∧
      (process_text_run (fun l : List Char => l.length) (fun _ => true)
          (List.replicate 100001 'a')
        = ((fun l : List Char => l.length) (List.replicate 100000 'a'),
            [List.replicate 100000 'a', List.replicate 1 'a']) ∧
        (∀ w ∈ [List.replicate 100000 'a', List.replicate 1 'a'], w.length ≤ 100000) ∧
        List.replicate 100001 'a' ∉ [List.replicate 100000 'a', List.replicate 1 'a']) :=
  ⟨by rw [List.length_replicate]; norm_num,
    process_text_first_window_only (fun l : List Char => l.length) (fun _ => true)
      (List.replicate 100001 'a') (List.replicate 100000 'a') [List.replicate 1 'a']
      (by rw [List.length_replicate]; norm_num) chunk_text_replicate_a rfl⟩

end EduBackend
